import Mathlib

/-!
Shallow embedding of the OVSDB JSON-RPC client (class OVSDBClient):
the frame decoder (_handleData), the message router (_handleResponse,
_handleNotification), the request correlator (request, the timeout and
write-error callbacks), and the disposal path (_cleanup, close), together
with the echo convenience wrapper.  Machine behaviour is modelled as a
step function on an explicit client state; traces of events model the
single-threaded event loop.
-/

namespace Ovsdb

/-- Structured JSON values (the JsonValue type of the client). -/
inductive Json where
  | null : Json
  | bool : Bool → Json
  | num : Int → Json
  | str : String → Json
  | arr : List Json → Json
  | obj : List (String × Json) → Json

/-- Field lookup in a parsed JSON object (first occurrence). -/
def lookupField : List (String × Json) → String → Option Json
  | [], _ => none
  | (k, v) :: rest, key => if k = key then some v else lookupField rest key

/-- Model of the JS check typeof x === 'object' && x !== null
(arrays are objects in JS; null has typeof 'object' but is excluded). -/
def isObjectJs : Json → Bool
  | Json.obj _ => true
  | Json.arr _ => true
  | _ => false

/-- Model of the JS property test (key in x): defined (some b) for objects
and arrays, a TypeError (none) on primitives. -/
def hasPropJs (x : Json) (key : String) : Option Bool :=
  match x with
  | Json.obj fs => some (lookupField fs key).isSome
  | Json.arr _ => some false
  | _ => none

/-- Model of JS property read x[key] on an object (absent field reads as
undefined, here none). -/
def jsGetField (x : Json) (key : String) : Option Json :=
  match x with
  | Json.obj fs => lookupField fs key
  | _ => none

/-- Whitespace characters stripped by String.prototype.trim and skipped by
JSON.parse. -/
def isJsWs (c : Char) : Bool :=
  c == ' ' || c == '\t' || c == '\n' || c == '\r'

/-- Model of String.prototype.trim. -/
def trimString (s : String) : String :=
  String.mk (((s.toList.dropWhile isJsWs).reverse.dropWhile isJsWs).reverse)

/-- Split a character list at every newline, keeping empty segments,
exactly as String.prototype.split with separator a newline does. -/
def splitNl : List Char → List (List Char)
  | [] => [[]]
  | c :: rest =>
    let r := splitNl rest
    if c = '\n' then [] :: r
    else match r with
      | [] => [[c]]
      | seg :: segs => (c :: seg) :: segs

/-- Model of s.split with a newline separator. -/
def splitLines (s : String) : List String :=
  (splitNl s.toList).map String.mk

/-- Skip JSON whitespace. -/
def skipWs : List Char → List Char
  | [] => []
  | c :: rest => if isJsWs c then skipWs rest else c :: rest

/-- Match a literal keyword tail such as the letters of null or true. -/
def expectLit : List Char → List Char → Option (List Char)
  | [], cs => some cs
  | _ :: _, [] => none
  | l :: ls, c :: cs => if c = l then expectLit ls cs else none

/-- Parse the body of a JSON string literal after its opening quote,
with the common escapes; fuelled for termination. -/
def parseStrBody : Nat → List Char → Option (List Char × List Char)
  | 0, _ => none
  | _ + 1, [] => none
  | fuel + 1, c :: rest =>
    if c = '"' then some ([], rest)
    else if c = '\\' then
      match rest with
      | [] => none
      | e :: rest2 =>
        let d : Option Char :=
          if e = '"' then some '"'
          else if e = '\\' then some '\\'
          else if e = '/' then some '/'
          else if e = 'n' then some '\n'
          else if e = 't' then some '\t'
          else if e = 'r' then some '\r'
          else none
        match d with
        | some dc => (parseStrBody fuel rest2).map (fun p => (dc :: p.1, p.2))
        | none => none
    else (parseStrBody fuel rest).map (fun p => (c :: p.1, p.2))

/-- Digits folded into a natural number. -/
def digitsToNat (ds : List Char) : Nat :=
  ds.foldl (fun acc c => acc * 10 + (c.toNat - 48)) 0

/-- Parse an optionally negated integer JSON number. -/
def parseNumTok : List Char → Option (Int × List Char)
  | '-' :: cs =>
    let p := cs.span Char.isDigit
    if p.1 = [] then none else some (-(Int.ofNat (digitsToNat p.1)), p.2)
  | cs =>
    let p := cs.span Char.isDigit
    if p.1 = [] then none else some (Int.ofNat (digitsToNat p.1), p.2)

mutual

/-- Parse one JSON value; the fuel bounds the recursion depth. -/
def parseVal : Nat → List Char → Option (Json × List Char)
  | 0, _ => none
  | fuel + 1, cs =>
    match skipWs cs with
    | [] => none
    | c :: rest =>
      if c = '"' then
        (parseStrBody (fuel + 1) rest).map (fun p => (Json.str (String.mk p.1), p.2))
      else if c = '[' then
        (parseElems fuel rest).map (fun p => (Json.arr p.1, p.2))
      else if c = '\x7b' then
        (parseFields fuel rest).map (fun p => (Json.obj p.1, p.2))
      else if c = 'n' then
        (expectLit [ 'u', 'l', 'l' ] rest).map (fun r => (Json.null, r))
      else if c = 't' then
        (expectLit [ 'r', 'u', 'e' ] rest).map (fun r => (Json.bool true, r))
      else if c = 'f' then
        (expectLit [ 'a', 'l', 's', 'e' ] rest).map (fun r => (Json.bool false, r))
      else if c = '-' ∨ c.isDigit then
        (parseNumTok (c :: rest)).map (fun p => (Json.num p.1, p.2))
      else none

/-- Parse array elements after the opening bracket. -/
def parseElems : Nat → List Char → Option (List Json × List Char)
  | 0, _ => none
  | fuel + 1, cs =>
    match skipWs cs with
    | ']' :: rest => some ([], rest)
    | cs' =>
      match parseVal fuel cs' with
      | none => none
      | some (v, r) =>
        match parseElemsTail fuel r with
        | none => none
        | some (vs, r2) => some (v :: vs, r2)

/-- Parse the remaining comma-separated array elements. -/
def parseElemsTail : Nat → List Char → Option (List Json × List Char)
  | 0, _ => none
  | fuel + 1, cs =>
    match skipWs cs with
    | ']' :: rest => some ([], rest)
    | ',' :: rest =>
      match parseVal fuel rest with
      | none => none
      | some (v, r) =>
        match parseElemsTail fuel r with
        | none => none
        | some (vs, r2) => some (v :: vs, r2)
    | _ => none

/-- Parse object fields after the opening brace. -/
def parseFields : Nat → List Char → Option (List (String × Json) × List Char)
  | 0, _ => none
  | fuel + 1, cs =>
    match skipWs cs with
    | '\x7d' :: rest => some ([], rest)
    | cs' =>
      match parseField fuel cs' with
      | none => none
      | some (kv, r) =>
        match parseFieldsTail fuel r with
        | none => none
        | some (kvs, r2) => some (kv :: kvs, r2)

/-- Parse the remaining comma-separated object fields. -/
def parseFieldsTail : Nat → List Char → Option (List (String × Json) × List Char)
  | 0, _ => none
  | fuel + 1, cs =>
    match skipWs cs with
    | '\x7d' :: rest => some ([], rest)
    | ',' :: rest =>
      match parseField fuel rest with
      | none => none
      | some (kv, r) =>
        match parseFieldsTail fuel r with
        | none => none
        | some (kvs, r2) => some (kv :: kvs, r2)
    | _ => none

/-- Parse one quoted key, a colon and a value. -/
def parseField : Nat → List Char → Option ((String × Json) × List Char)
  | 0, _ => none
  | fuel + 1, cs =>
    match skipWs cs with
    | '"' :: rest =>
      match parseStrBody (fuel + 1) rest with
      | none => none
      | some (key, r) =>
        match skipWs r with
        | ':' :: r2 =>
          match parseVal fuel r2 with
          | none => none
          | some (v, r3) => some ((String.mk key, v), r3)
        | _ => none
    | _ => none

end

/-- Model of JSON.parse restricted to the integer-number fragment: parse a
whole value and require only whitespace to remain; none models the thrown
SyntaxError. -/
def jsonParse (s : String) : Option Json :=
  match parseVal (2 * s.length + 4) s.toList with
  | some (v, rest) => if skipWs rest = [] then some v else none
  | none => none

/-- Terminal settlement of one pending call's deferred result: each
constructor records one of the reject/resolve sites of the client. -/
inductive CallOutcome where
  | resolved (value : Json)
  | rpcError (err : Json)
  | requestTimeout (method : String)
  | connectionClosed
  | writeFailed

/-- State of one OVSDBClient instance: the connected flag, the requestId
counter, the pendingRequests map (insertion ordered, keyed by id, holding
the captured method name), the armed setTimeout handles with the method
captured by each timeout closure, the settlement log of every deferred
result, and the ghost list of ids the correlator has handed out. -/
structure ClientState where
  isConnected : Bool
  requestId : Int
  pending : List (Int × String)
  timers : List (Int × String)
  outcomes : List (Int × CallOutcome)
  issued : List Int

/-- State of a freshly constructed client: not connected, counter at 1,
no pending requests. -/
def initState : ClientState :=
  { isConnected := false, requestId := 1, pending := [], timers := [],
    outcomes := [], issued := [] }

/-- Keys of an association list. -/
def keysOf (l : List (Int × α)) : List Int :=
  l.map Prod.fst

/-- First value stored under a key (Map.prototype.get). -/
def lookupKey : List (Int × α) → Int → Option α
  | [], _ => none
  | (k, v) :: rest, id => if k = id then some v else lookupKey rest id

/-- Removal of a key (Map.prototype.delete). -/
def eraseKey (l : List (Int × α)) (id : Int) : List (Int × α) :=
  l.filter (fun kv => kv.1 != id)

/-- What the caller of request observes synchronously: an immediate
rejection with the not-connected error, or registration under a fresh id. -/
inductive RequestResult where
  | notConnected
  | registered (id : Int)

/-- Body of OVSDBClient.request: when not connected, reject immediately
and change nothing; otherwise allocate id = requestId++, arm the timeout,
and store the pending entry.  The params only flow into the serialized
frame, not into client state. -/
def requestStep (st : ClientState) (method : String) (_params : List Json) :
    ClientState × RequestResult :=
  if st.isConnected then
    ({ st with
        requestId := st.requestId + 1,
        pending := st.pending ++ [(st.requestId, method)],
        timers := st.timers ++ [(st.requestId, method)],
        issued := st.issued ++ [st.requestId] },
      RequestResult.registered st.requestId)
  else
    (st, RequestResult.notConnected)

/-- Firing of the setTimeout callback armed by request: only an armed
timer can fire; the callback deletes the pending entry and rejects with
the request-timeout error naming the captured method. -/
def timeoutStep (st : ClientState) (id : Int) : ClientState :=
  match lookupKey st.timers id with
  | some method =>
    { st with
        timers := eraseKey st.timers id,
        pending := eraseKey st.pending id,
        outcomes := st.outcomes ++ [(id, CallOutcome.requestTimeout method)] }
  | none => st

/-- Error branch of the socket.write callback in request: clear the
timeout, delete the pending entry and reject with the write error.  When
the entry is already gone the promise is settled, so the late reject is a
no-op and the state is unchanged. -/
def writeErrStep (st : ClientState) (id : Int) : ClientState :=
  match lookupKey st.pending id with
  | some _ =>
    { st with
        timers := eraseKey st.timers id,
        pending := eraseKey st.pending id,
        outcomes := st.outcomes ++ [(id, CallOutcome.writeFailed)] }
  | none => st

/-- Observable classification of one routed message, mirroring the logging
sites of _handleResponse and _handleNotification. -/
inductive RouteResult where
  | invalidFormat
  | responded (id : Int)
  | notified (method : Json)
  | invalidNotification

/-- Test from _handleResponse line 298: a top-level error field is present
and its value is not null. -/
def errIsNonNull (fields : List (String × Json)) : Bool :=
  match lookupField fields "error" with
  | some Json.null => false
  | some _ => true
  | none => false

/-- Value of the top-level error field (total, defaulting to null). -/
def errValue (fields : List (String × Json)) : Json :=
  (lookupField fields "error").getD Json.null

/-- Matched branch of _handleResponse: delete the entry, clear its
timeout, then reject with the RPC error or resolve with the whole response
object. -/
def settleMatched (st : ClientState) (n : Int) (response : Json)
    (fields : List (String × Json)) : ClientState :=
  { st with
      pending := eraseKey st.pending n,
      timers := eraseKey st.timers n,
      outcomes := st.outcomes ++
        [(n, if errIsNonNull fields then CallOutcome.rpcError (errValue fields)
             else CallOutcome.resolved response)] }

/-- Body of _handleNotification: a non-object or an object without a
method field is logged as an invalid notification; otherwise the message
is dispatched keyed by its method value. -/
def handleNotification (notification : Json) : RouteResult :=
  match notification with
  | Json.obj fields =>
    match lookupField fields "method" with
    | some m => RouteResult.notified m
    | none => RouteResult.invalidNotification
  | _ => RouteResult.invalidNotification

/-- Recognized notification kinds of the switch in _handleNotification;
every unrecognized or non-string method value falls into the logged
default bucket. -/
inductive NotifyKind where
  | update
  | locked
  | stolen
  | other
deriving Repr, DecidableEq

/-- Dispatch table of the switch statement in _handleNotification. -/
def notifyKindOf : Json → NotifyKind
  | Json.str "update" => NotifyKind.update
  | Json.str "locked" => NotifyKind.locked
  | Json.str "stolen" => NotifyKind.stolen
  | _ => NotifyKind.other

/-- Body of _handleResponse: non-objects and objects without an id field
are logged as invalid; an id value matching a pending key settles that
call; anything else is handed to _handleNotification. -/
def handleResponse (st : ClientState) (response : Json) :
    ClientState × RouteResult :=
  match response with
  | Json.obj fields =>
    match lookupField fields "id" with
    | none => (st, RouteResult.invalidFormat)
    | some idVal =>
      match idVal with
      | Json.num n =>
        match lookupKey st.pending n with
        | some _ => (settleMatched st n (Json.obj fields) fields,
                     RouteResult.responded n)
        | none => (st, handleNotification (Json.obj fields))
      | _ => (st, handleNotification (Json.obj fields))
  | _ => (st, RouteResult.invalidFormat)

/-- Loop body of _handleData over the split segments: empty segments are
skipped, parsed segments are routed, and a parse failure is counted
(logged) without stopping the loop.  Returns the final state, the route
results in order, and the number of logged parse failures. -/
def processSegments (st : ClientState) :
    List String → ClientState × List RouteResult × Nat
  | [] => (st, [], 0)
  | seg :: rest =>
    if seg = "" then processSegments st rest
    else
      match jsonParse seg with
      | some msg =>
        let p := handleResponse st msg
        let q := processSegments p.1 rest
        (q.1, p.2 :: q.2.1, q.2.2)
      | none =>
        let q := processSegments st rest
        (q.1, q.2.1, q.2.2 + 1)

/-- Body of _handleData: trim the whole chunk, split it on newlines and
process the segments of this one chunk; no remainder is carried over to
the next chunk. -/
def handleData (st : ClientState) (chunk : String) :
    ClientState × List RouteResult × Nat :=
  processSegments st (splitLines (trimString chunk))

/-- Body of _cleanup: drop the connected flag, release the socket, then
for every pending entry clear its timeout and reject with the
connection-closed error, and finally clear the map. -/
def cleanup (st : ClientState) : ClientState :=
  { st with
      isConnected := false,
      pending := [],
      timers := [],
      outcomes := st.outcomes ++
        st.pending.map (fun kv => (kv.1, CallOutcome.connectionClosed)) }

/-- Events of the single-threaded event loop driving one client: socket
connection established, a caller issuing request, a data chunk arriving,
an armed timeout firing, a write callback reporting an error, close or
asyncDispose being invoked, and the socket close or error handlers firing. -/
inductive Event where
  | connectOk
  | request (method : String) (params : List Json)
  | chunk (data : String)
  | timeoutFire (id : Int)
  | writeErr (id : Int)
  | close
  | socketClosed

/-- One event handled to completion, as the event loop runs handlers. -/
def step (st : ClientState) : Event → ClientState
  | Event.connectOk => { st with isConnected := true }
  | Event.request m ps => (requestStep st m ps).1
  | Event.chunk s => (handleData st s).1
  | Event.timeoutFire id => timeoutStep st id
  | Event.writeErr id => writeErrStep st id
  | Event.close => if st.isConnected then cleanup st else st
  | Event.socketClosed => cleanup st

/-- Run of the event loop from a state through a list of events. -/
def run (st : ClientState) (events : List Event) : ClientState :=
  events.foldl step st

/-- States of one client instance reachable from construction. -/
def Reachable (st : ClientState) : Prop :=
  ∃ events, run initState events = st

/-- Method and params the echo wrapper passes to request (line 195): an
array payload is sent as-is, any other payload is wrapped in a singleton
array. -/
def echoCall (payload : Json) : String × List Json :=
  ("echo", match payload with
           | Json.arr xs => xs
           | p => [p])

/-- Default payload of echo (the parameter default on line 194). -/
def echoDefaultPayload : Json :=
  Json.str "ping"

/-- Observable outcome of the response checks in echo (lines 196-203). -/
inductive EchoResult where
  | rpcError (err : Json)
  | ovsdbError (err : Json)
  | ok (result : Json)
  | typeError

/-- Post-processing echo applies to the value its request resolved with:
throw on a non-null top-level error, read the result field, throw when
the result itself carries an error member, otherwise return the result;
property tests on non-objects model the JS TypeError. -/
def echoAfter (response : Json) : EchoResult :=
  match hasPropJs response "error" with
  | none => EchoResult.typeError
  | some hasErr =>
    if hasErr && (match jsGetField response "error" with
                  | some Json.null => false
                  | some _ => true
                  | none => false) then
      EchoResult.rpcError ((jsGetField response "error").getD Json.null)
    else
      match jsGetField response "result" with
      | none => EchoResult.typeError
      | some result =>
        match hasPropJs result "error" with
        | none => EchoResult.typeError
        | some resultHasErr =>
          if resultHasErr then
            EchoResult.ovsdbError ((jsGetField result "error").getD Json.null)
          else
            EchoResult.ok result

/-- Model of Array.isArray. -/
def isArrayJs : Json → Bool
  | Json.arr _ => true
  | _ => false

/-- Membership in the three finalization families enumerated by the spec
for a pending call: a matching response (resolve or RPC-error rejection),
timeout expiry, or connection closure. -/
def isSpecFinalKind : CallOutcome → Bool
  | CallOutcome.resolved _ => true
  | CallOutcome.rpcError _ => true
  | CallOutcome.requestTimeout _ => true
  | CallOutcome.connectionClosed => true
  | CallOutcome.writeFailed => false

/-- Check that every newline-separated segment of a trimmed chunk is empty
or undecodable, as the two halves of a split frame are. -/
def allUndecodable (chunk : String) : Bool :=
  (splitLines (trimString chunk)).all (fun s => s == "" || (jsonParse s).isNone)

theorem keysOf_append (a b : List (Int × α)) :
    keysOf (a ++ b) = keysOf a ++ keysOf b :=
  List.map_append _ _ _

theorem mem_keysOf_eraseKey {l : List (Int × α)} {id x : Int} :
    x ∈ keysOf (eraseKey l id) ↔ x ∈ keysOf l ∧ x ≠ id := by
  simp only [keysOf, eraseKey, List.mem_map, List.mem_filter, bne_iff_ne]
  constructor
  · rintro ⟨kv, ⟨hl, hne⟩, rfl⟩
    exact ⟨⟨kv, hl, rfl⟩, hne⟩
  · rintro ⟨⟨kv, hl, rfl⟩, hne⟩
    exact ⟨kv, ⟨hl, hne⟩, rfl⟩

theorem nodup_keysOf_eraseKey {l : List (Int × α)} {id : Int}
    (h : (keysOf l).Nodup) : (keysOf (eraseKey l id)).Nodup :=
  List.Nodup.sublist ((List.filter_sublist l).map Prod.fst) h

theorem lookupKey_eq_some_mem {l : List (Int × α)} {id : Int} {v : α}
    (h : lookupKey l id = some v) : id ∈ keysOf l := by
  induction l with
  | nil => simp [lookupKey] at h
  | cons hd tl ih =>
    obtain ⟨k, w⟩ := hd
    by_cases hk : k = id
    · simp [keysOf, hk]
    · simp only [lookupKey, hk, if_false] at h
      simp only [keysOf, List.map_cons, List.mem_cons]
      exact Or.inr (ih h)

theorem lookupKey_eq_none_iff {l : List (Int × α)} {id : Int} :
    lookupKey l id = none ↔ id ∉ keysOf l := by
  induction l with
  | nil => simp [lookupKey, keysOf]
  | cons hd tl ih =>
    obtain ⟨k, w⟩ := hd
    by_cases hk : k = id
    · simp [lookupKey, keysOf, hk]
    · simp [lookupKey, keysOf, hk, ih, Ne.symm hk]

theorem keysOf_map_closed (l : List (Int × String)) :
    keysOf (l.map (fun kv => (kv.1, CallOutcome.connectionClosed))) = keysOf l := by
  simp [keysOf, List.map_map, Function.comp_def]

/-- Invariant of the correlator state: the counter is positive, ids are
handed out in strictly increasing order below the counter, the pending
table and the settlement log have disjoint nodup key sets partitioning the
issued ids, and the armed timers are exactly the pending entries. -/
structure Inv (st : ClientState) : Prop where
  ridPos : 1 ≤ st.requestId
  issuedMono : st.issued.Pairwise (· < ·)
  issuedLB : ∀ id ∈ st.issued, 1 ≤ id
  issuedUB : ∀ id ∈ st.issued, id < st.requestId
  pendSub : ∀ id ∈ keysOf st.pending, id ∈ st.issued
  outSub : ∀ id ∈ keysOf st.outcomes, id ∈ st.issued
  coverIssued : ∀ id ∈ st.issued, id ∈ keysOf st.pending ∨ id ∈ keysOf st.outcomes
  pendNodup : (keysOf st.pending).Nodup
  outNodup : (keysOf st.outcomes).Nodup
  disj : ∀ id ∈ keysOf st.pending, id ∉ keysOf st.outcomes
  timersEq : st.timers = st.pending

theorem inv_init : Inv initState := by
  constructor <;> simp [initState, keysOf]

theorem inv_settle {st : ClientState} (h : Inv st) {id : Int}
    (hid : id ∈ keysOf st.pending) (oc : CallOutcome) :
    Inv { st with pending := eraseKey st.pending id,
                  timers := eraseKey st.timers id,
                  outcomes := st.outcomes ++ [(id, oc)] } := by
  obtain ⟨ridPos, mono, lb, ub, pSub, oSub, cover, pN, oN, disj, tEq⟩ := h
  refine ⟨ridPos, mono, lb, ub, ?_, ?_, ?_, ?_, ?_, ?_, ?_⟩
  · intro x hx
    exact pSub x (mem_keysOf_eraseKey.mp hx).1
  · intro x hx
    rw [keysOf_append] at hx
    rcases List.mem_append.mp hx with hx | hx
    · exact oSub x hx
    · simp only [keysOf, List.map_cons, List.map_nil, List.mem_singleton] at hx
      subst hx
      exact pSub x hid
  · intro x hx
    rcases cover x hx with hp | ho
    · by_cases hxi : x = id
      · subst hxi
        right
        rw [keysOf_append]
        simp [keysOf]
      · exact Or.inl (mem_keysOf_eraseKey.mpr ⟨hp, hxi⟩)
    · right
      rw [keysOf_append]
      exact List.mem_append_left _ ho
  · exact nodup_keysOf_eraseKey pN
  · rw [keysOf_append]
    refine List.Nodup.append oN (by simp [keysOf]) ?_
    intro a ha hb
    simp only [keysOf, List.map_cons, List.map_nil, List.mem_singleton] at hb
    subst hb
    exact disj a hid ha
  · intro x hx
    obtain ⟨hxp, hxne⟩ := mem_keysOf_eraseKey.mp hx
    rw [keysOf_append]
    intro hmem
    rcases List.mem_append.mp hmem with hmem | hmem
    · exact disj x hxp hmem
    · simp only [keysOf, List.map_cons, List.map_nil, List.mem_singleton] at hmem
      exact hxne hmem
  · rw [tEq]

theorem inv_requestStep {st : ClientState} (h : Inv st) (m : String)
    (ps : List Json) : Inv (requestStep st m ps).1 := by
  obtain ⟨ridPos, mono, lb, ub, pSub, oSub, cover, pN, oN, disj, tEq⟩ := h
  by_cases hc : st.isConnected
  · have hfreshP : st.requestId ∉ keysOf st.pending := fun hx =>
      absurd (ub _ (pSub _ hx)) (lt_irrefl _)
    have hfreshO : st.requestId ∉ keysOf st.outcomes := fun hx =>
      absurd (ub _ (oSub _ hx)) (lt_irrefl _)
    simp only [requestStep, hc, if_true]
    refine ⟨?_, ?_, ?_, ?_, ?_, ?_, ?_, ?_, ?_, ?_, ?_⟩ <;> dsimp only
    · omega
    · refine List.pairwise_append.mpr ⟨mono, List.pairwise_singleton _ _, ?_⟩
      intro a ha b hb
      rw [List.mem_singleton] at hb
      subst hb
      exact ub a ha
    · intro x hx
      rcases List.mem_append.mp hx with hx | hx
      · exact lb x hx
      · rw [List.mem_singleton] at hx
        subst hx
        exact ridPos
    · intro x hx
      rcases List.mem_append.mp hx with hx | hx
      · have := ub x hx
        omega
      · rw [List.mem_singleton] at hx
        subst hx
        omega
    · intro x hx
      rw [keysOf_append] at hx
      rcases List.mem_append.mp hx with hx | hx
      · exact List.mem_append_left _ (pSub x hx)
      · simp only [keysOf, List.map_cons, List.map_nil, List.mem_singleton] at hx
        subst hx
        exact List.mem_append_right _ (List.mem_singleton_self _)
    · intro x hx
      exact List.mem_append_left _ (oSub x hx)
    · intro x hx
      rcases List.mem_append.mp hx with hx | hx
      · rcases cover x hx with hp | ho
        · left
          rw [keysOf_append]
          exact List.mem_append_left _ hp
        · exact Or.inr ho
      · rw [List.mem_singleton] at hx
        subst hx
        left
        rw [keysOf_append]
        simp [keysOf]
    · rw [keysOf_append]
      refine List.Nodup.append pN (by simp [keysOf]) ?_
      intro a ha hb
      simp only [keysOf, List.map_cons, List.map_nil, List.mem_singleton] at hb
      subst hb
      exact hfreshP ha
    · exact oN
    · intro x hx
      rw [keysOf_append] at hx
      rcases List.mem_append.mp hx with hx | hx
      · exact disj x hx
      · simp only [keysOf, List.map_cons, List.map_nil, List.mem_singleton] at hx
        subst hx
        exact hfreshO
    · rw [tEq]
  · simp only [requestStep, hc, if_false]
    exact ⟨ridPos, mono, lb, ub, pSub, oSub, cover, pN, oN, disj, tEq⟩

theorem inv_timeoutStep {st : ClientState} (h : Inv st) (id : Int) :
    Inv (timeoutStep st id) := by
  unfold timeoutStep
  split
  next m heq =>
    have hid : id ∈ keysOf st.pending := by
      rw [h.timersEq] at heq
      exact lookupKey_eq_some_mem heq
    exact inv_settle h hid _
  next => exact h

theorem inv_writeErrStep {st : ClientState} (h : Inv st) (id : Int) :
    Inv (writeErrStep st id) := by
  unfold writeErrStep
  split
  next v heq => exact inv_settle h (lookupKey_eq_some_mem heq) _
  next => exact h

theorem inv_handleResponse {st : ClientState} (h : Inv st) (msg : Json) :
    Inv (handleResponse st msg).1 := by
  cases msg with
  | obj fields =>
    cases hf : lookupField fields "id" with
    | none => simp only [handleResponse, hf]; exact h
    | some idVal =>
      cases idVal with
      | num n =>
        cases hk : lookupKey st.pending n with
        | some v =>
          simp only [handleResponse, hf, hk]
          exact inv_settle h (lookupKey_eq_some_mem hk) _
        | none => simp only [handleResponse, hf, hk]; exact h
      | null => simp only [handleResponse, hf]; exact h
      | bool b => simp only [handleResponse, hf]; exact h
      | str s => simp only [handleResponse, hf]; exact h
      | arr xs => simp only [handleResponse, hf]; exact h
      | obj fs => simp only [handleResponse, hf]; exact h
  | null => exact h
  | bool b => exact h
  | num n => exact h
  | str s => exact h
  | arr xs => exact h

theorem inv_processSegments (segs : List String) :
    ∀ st : ClientState, Inv st → Inv (processSegments st segs).1 := by
  induction segs with
  | nil => intro st h; exact h
  | cons seg rest ih =>
    intro st h
    by_cases hs : seg = ""
    · simp only [processSegments, hs, if_true]
      exact ih st h
    · simp only [processSegments, hs, if_false]
      cases hp : jsonParse seg with
      | some msg =>
        simp only [hp]
        exact ih _ (inv_handleResponse h msg)
      | none =>
        simp only [hp]
        exact ih st h

theorem inv_cleanup {st : ClientState} (h : Inv st) : Inv (cleanup st) := by
  obtain ⟨ridPos, mono, lb, ub, pSub, oSub, cover, pN, oN, disj, tEq⟩ := h
  unfold cleanup
  refine ⟨?_, ?_, ?_, ?_, ?_, ?_, ?_, ?_, ?_, ?_, ?_⟩ <;> dsimp only
  · exact ridPos
  · exact mono
  · exact lb
  · exact ub
  · intro x hx
    simp [keysOf] at hx
  · intro x hx
    rw [keysOf_append, keysOf_map_closed] at hx
    rcases List.mem_append.mp hx with hx | hx
    · exact oSub x hx
    · exact pSub x hx
  · intro x hx
    right
    rw [keysOf_append, keysOf_map_closed]
    rcases cover x hx with hp | ho
    · exact List.mem_append_right _ hp
    · exact List.mem_append_left _ ho
  · simp [keysOf]
  · rw [keysOf_append, keysOf_map_closed]
    exact List.Nodup.append oN pN (fun a ha hb => disj a hb ha)
  · intro x hx
    simp [keysOf] at hx

theorem inv_step {st : ClientState} (h : Inv st) (e : Event) :
    Inv (step st e) := by
  cases e with
  | connectOk =>
    exact ⟨h.ridPos, h.issuedMono, h.issuedLB, h.issuedUB, h.pendSub, h.outSub,
           h.coverIssued, h.pendNodup, h.outNodup, h.disj, h.timersEq⟩
  | request m ps => exact inv_requestStep h m ps
  | chunk s =>
    show Inv (processSegments st (splitLines (trimString s))).1
    exact inv_processSegments _ st h
  | timeoutFire id => exact inv_timeoutStep h id
  | writeErr id => exact inv_writeErrStep h id
  | close =>
    by_cases hc : st.isConnected
    · simp only [step, hc, if_true]
      exact inv_cleanup h
    · simp only [step, hc, if_false]
      exact h
  | socketClosed => exact inv_cleanup h

theorem inv_run (events : List Event) :
    ∀ st : ClientState, Inv st → Inv (run st events) := by
  induction events with
  | nil => intro st h; exact h
  | cons e rest ih =>
    intro st h
    exact ih (step st e) (inv_step h e)

theorem inv_reachable {st : ClientState} (h : Reachable st) : Inv st := by
  obtain ⟨events, rfl⟩ := h
  exact inv_run events initState inv_init

theorem requestId_handleResponse (st : ClientState) (msg : Json) :
    (handleResponse st msg).1.requestId = st.requestId := by
  cases msg with
  | obj fields =>
    cases hf : lookupField fields "id" with
    | none => simp [handleResponse, hf]
    | some idVal =>
      cases idVal with
      | num n =>
        cases hk : lookupKey st.pending n with
        | some v => simp [handleResponse, hf, hk, settleMatched]
        | none => simp [handleResponse, hf, hk]
      | null => simp [handleResponse, hf]
      | bool b => simp [handleResponse, hf]
      | str s => simp [handleResponse, hf]
      | arr xs => simp [handleResponse, hf]
      | obj fs => simp [handleResponse, hf]
  | null => rfl
  | bool b => rfl
  | num n => rfl
  | str s => rfl
  | arr xs => rfl

theorem requestId_processSegments (segs : List String) :
    ∀ st : ClientState, (processSegments st segs).1.requestId = st.requestId := by
  induction segs with
  | nil => intro st; rfl
  | cons seg rest ih =>
    intro st
    by_cases hs : seg = ""
    · simp only [processSegments, hs, if_true]
      exact ih st
    · simp only [processSegments, hs, if_false]
      cases hp : jsonParse seg with
      | some msg =>
        simp only [hp]
        show (processSegments (handleResponse st msg).1 rest).1.requestId = _
        rw [ih, requestId_handleResponse]
      | none =>
        simp only [hp]
        exact ih st

theorem requestId_step_mono (st : ClientState) (e : Event) :
    st.requestId ≤ (step st e).requestId := by
  cases e with
  | connectOk => exact le_of_eq rfl
  | request m ps =>
    by_cases hc : st.isConnected
    · simp only [step, requestStep, hc, if_true]
      show st.requestId ≤ st.requestId + 1
      omega
    · simp [step, requestStep, hc]
  | chunk s =>
    show st.requestId ≤ (processSegments st (splitLines (trimString s))).1.requestId
    rw [requestId_processSegments]
  | timeoutFire id =>
    show st.requestId ≤ (timeoutStep st id).requestId
    unfold timeoutStep
    split
    next m heq => exact le_of_eq rfl
    next => exact le_of_eq rfl
  | writeErr id =>
    show st.requestId ≤ (writeErrStep st id).requestId
    unfold writeErrStep
    split
    next v heq => exact le_of_eq rfl
    next => exact le_of_eq rfl
  | close =>
    by_cases hc : st.isConnected
    · simp only [step, hc, if_true]
      exact le_of_eq rfl
    · simp [step, hc]
  | socketClosed => exact le_of_eq rfl

theorem handleNotification_ne_responded (msg : Json) (j : Int) :
    handleNotification msg ≠ RouteResult.responded j := by
  cases msg with
  | obj fields =>
    cases hm : lookupField fields "method" with
    | some m => simp [handleNotification, hm]
    | none => simp [handleNotification, hm]
  | null => simp [handleNotification]
  | bool b => simp [handleNotification]
  | num n => simp [handleNotification]
  | str s => simp [handleNotification]
  | arr xs => simp [handleNotification]

theorem handleResponse_unmatched {st : ClientState}
    {fields : List (String × Json)} {n : Int}
    (hf : lookupField fields "id" = some (Json.num n))
    (hk : lookupKey st.pending n = none) :
    handleResponse st (Json.obj fields) = (st, handleNotification (Json.obj fields)) := by
  simp [handleResponse, hf, hk]

theorem processSegments_skip_bad {bad : String} (hb : ¬ bad = "")
    (hp : jsonParse bad = none) :
    ∀ (pre post : List String) (st : ClientState),
      processSegments st (pre ++ bad :: post) =
        ((processSegments st (pre ++ post)).1,
         (processSegments st (pre ++ post)).2.1,
         (processSegments st (pre ++ post)).2.2 + 1) := by
  intro pre
  induction pre with
  | nil =>
    intro post st
    simp only [List.nil_append, processSegments, hb, if_false, hp]
  | cons seg rest ih =>
    intro post st
    simp only [List.cons_append, processSegments, List.append_eq]
    by_cases hs : seg = ""
    · simp only [hs, if_true]
      exact ih post st
    · simp only [hs, if_false]
      cases hq : jsonParse seg with
      | some msg =>
        simp only [hq, ih post]
      | none =>
        simp only [hq, ih post]

theorem processSegments_all_bad (segs : List String)
    (h : segs.all (fun s => s == "" || (jsonParse s).isNone) = true) :
    ∀ st : ClientState,
      processSegments st segs = (st, [], (segs.filter (fun s => s != "")).length) := by
  induction segs with
  | nil => intro st; rfl
  | cons seg rest ih =>
    rw [List.all_cons, Bool.and_eq_true] at h
    obtain ⟨h1, h2⟩ := h
    intro st
    by_cases hs : seg = ""
    · simp only [processSegments, hs, if_true, ih h2 st, List.filter_cons]
      simp [hs]
    · have hpn : jsonParse seg = none := by
        have h1a : seg = "" ∨ jsonParse seg = none := by simpa using h1
        rcases h1a with h1a | h1a
        · exact absurd h1a hs
        · exact h1a
      simp only [processSegments, hs, if_false, hpn, ih h2 st, List.filter_cons]
      simp [hs]

/-- C1 counterexample: the error callback of socket.write is a fourth
finalization path.  After connecting, issuing one call and the write
failing, the single settlement of call 1 is the write-failure rejection,
which is none of the three kinds the claim enumerates (matching response,
timeout expiry, connection closure). -/
theorem c1_finalization_counterexample :
    (run initState [Event.connectOk, Event.request "echo" [Json.str "ping"],
        Event.writeErr 1]).outcomes = [(1, CallOutcome.writeFailed)]
    ∧ isSpecFinalKind CallOutcome.writeFailed = false :=
  ⟨rfl, rfl⟩

/-- C1 (amended): in every reachable state every issued call is either
still in the pending table (with the timer list in lockstep with the
table, so a settled call has neither entry nor armed timer) or settled,
never both; the settlement log never holds two settlements for one id;
and running _cleanup empties the pending table, cancels every timer and
leaves every issued call settled — so no call is ever left unresolved,
each call being finalized exactly once by a matching response, timeout
expiry, connection closure, or a failed transport write. -/
theorem c1_finalization_amended (st : ClientState) (id : Int)
    (h : Reachable st) (hiss : id ∈ st.issued) :
    (keysOf st.outcomes).Nodup
    ∧ (id ∈ keysOf st.pending ∨ id ∈ keysOf st.outcomes)
    ∧ ¬ (id ∈ keysOf st.pending ∧ id ∈ keysOf st.outcomes)
    ∧ st.timers = st.pending
    ∧ (cleanup st).pending = []
    ∧ (cleanup st).timers = []
    ∧ id ∈ keysOf (cleanup st).outcomes := by
  have hi := inv_reachable h
  refine ⟨hi.outNodup, hi.coverIssued id hiss, ?_, hi.timersEq, rfl, rfl, ?_⟩
  · rintro ⟨hp, ho⟩
    exact hi.disj id hp ho
  · show id ∈ keysOf (st.outcomes ++
      st.pending.map (fun kv => (kv.1, CallOutcome.connectionClosed)))
    rw [keysOf_append, keysOf_map_closed]
    rcases hi.coverIssued id hiss with hp | ho
    · exact List.mem_append_right _ hp
    · exact List.mem_append_left _ ho

/-- C1 witness: the amended statement at the reachable state reached by
connecting and issuing one call, for the issued id 1. -/
theorem c1_finalization_witness :
    (keysOf (run initState [Event.connectOk, Event.request "echo" []]).outcomes).Nodup
    ∧ (1 ∈ keysOf (run initState [Event.connectOk, Event.request "echo" []]).pending
       ∨ 1 ∈ keysOf (run initState [Event.connectOk, Event.request "echo" []]).outcomes)
    ∧ ¬ (1 ∈ keysOf (run initState [Event.connectOk, Event.request "echo" []]).pending
         ∧ 1 ∈ keysOf (run initState [Event.connectOk, Event.request "echo" []]).outcomes)
    ∧ (run initState [Event.connectOk, Event.request "echo" []]).timers
        = (run initState [Event.connectOk, Event.request "echo" []]).pending
    ∧ (cleanup (run initState [Event.connectOk, Event.request "echo" []])).pending = []
    ∧ (cleanup (run initState [Event.connectOk, Event.request "echo" []])).timers = []
    ∧ 1 ∈ keysOf (cleanup (run initState [Event.connectOk, Event.request "echo" []])).outcomes :=
  c1_finalization_amended _ 1 ⟨[Event.connectOk, Event.request "echo" []], rfl⟩
    (by decide)

/-- C2 counterexample: decoding the frame with result payload a singleton
ping array for the pending call with id 7 settles that call with the
entire response object, not with the result payload, so the deferred
result does not receive the array the claim names. -/
theorem c2_response_counterexample :
    (run initState [Event.connectOk,
        Event.request "echo" [Json.str "ping"], Event.request "echo" [Json.str "ping"],
        Event.request "echo" [Json.str "ping"], Event.request "echo" [Json.str "ping"],
        Event.request "echo" [Json.str "ping"], Event.request "echo" [Json.str "ping"],
        Event.request "echo" [Json.str "ping"],
        Event.chunk "\x7b\"result\":[\"ping\"],\"error\":null,\"id\":7\x7d\n"]).outcomes
      = [(7, CallOutcome.resolved (Json.obj [("result", Json.arr [Json.str "ping"]),
            ("error", Json.null), ("id", Json.num 7)]))]
    ∧ Json.obj [("result", Json.arr [Json.str "ping"]), ("error", Json.null),
        ("id", Json.num 7)] ≠ Json.arr [Json.str "ping"] :=
  ⟨rfl, fun h => Json.noConfusion h⟩

/-- C2 (amended): when an inbound message's identifier equals a pending
id, the router deletes the entry and clears its timeout, then rejects with
the RPC error carrying the server-provided error value when the top-level
error field is non-null, and otherwise resolves the call with the whole
response message (from which the wrappers read the result field). -/
theorem c2_response_amended (st : ClientState) (fields : List (String × Json))
    (n : Int) (method : String)
    (hf : lookupField fields "id" = some (Json.num n))
    (hk : lookupKey st.pending n = some method) :
    (errIsNonNull fields = true →
      handleResponse st (Json.obj fields) =
        ({ st with pending := eraseKey st.pending n,
                   timers := eraseKey st.timers n,
                   outcomes := st.outcomes ++
                     [(n, CallOutcome.rpcError (errValue fields))] },
         RouteResult.responded n))
    ∧ (errIsNonNull fields = false →
      handleResponse st (Json.obj fields) =
        ({ st with pending := eraseKey st.pending n,
                   timers := eraseKey st.timers n,
                   outcomes := st.outcomes ++
                     [(n, CallOutcome.resolved (Json.obj fields))] },
         RouteResult.responded n)) := by
  constructor
  · intro he
    simp [handleResponse, hf, hk, settleMatched, he]
  · intro he
    simp [handleResponse, hf, hk, settleMatched, he]

/-- C2 witness: the amended statement applied to a state with the single
pending call 1, decoding the ping response for id 1. -/
theorem c2_response_witness :
    handleResponse
        { isConnected := true, requestId := 2, pending := [(1, "echo")],
          timers := [(1, "echo")], outcomes := [], issued := [1] }
        (Json.obj [("result", Json.arr [Json.str "ping"]), ("error", Json.null),
          ("id", Json.num 1)])
      = ({ isConnected := true, requestId := 2, pending := [], timers := [],
           outcomes := [(1, CallOutcome.resolved (Json.obj
             [("result", Json.arr [Json.str "ping"]), ("error", Json.null),
              ("id", Json.num 1)]))],
           issued := [1] },
         RouteResult.responded 1) :=
  (c2_response_amended
    { isConnected := true, requestId := 2, pending := [(1, "echo")],
      timers := [(1, "echo")], outcomes := [], issued := [1] }
    [("result", Json.arr [Json.str "ping"]), ("error", Json.null),
     ("id", Json.num 1)] 1 "echo" rfl rfl).2 rfl

/-- C3: an armed timeout firing rejects its call with the request-timeout
error naming the captured method and deletes the entry from the pending
table (and the timer list); afterwards a response bearing that same
identifier matches no pending entry, so it leaves the state untouched and
is routed to the notification handler, never delivered to any call. -/
theorem c3_timeout_rejection (st st2 : ClientState) (id j : Int)
    (method : String) (fields : List (String × Json))
    (ht : lookupKey st.timers id = some method)
    (hk2 : lookupKey st2.pending id = none)
    (hf : lookupField fields "id" = some (Json.num id)) :
    timeoutStep st id =
      { st with timers := eraseKey st.timers id,
                pending := eraseKey st.pending id,
                outcomes := st.outcomes ++
                  [(id, CallOutcome.requestTimeout method)] }
    ∧ id ∉ keysOf (timeoutStep st id).pending
    ∧ (handleResponse st2 (Json.obj fields)).1 = st2
    ∧ (handleResponse st2 (Json.obj fields)).2 ≠ RouteResult.responded j := by
  refine ⟨?_, ?_, ?_, ?_⟩
  · simp [timeoutStep, ht]
  · simp only [timeoutStep, ht]
    intro hmem
    exact (mem_keysOf_eraseKey.mp hmem).2 rfl
  · rw [handleResponse_unmatched hf hk2]
  · rw [handleResponse_unmatched hf hk2]
    show handleNotification (Json.obj fields) ≠ RouteResult.responded j
    exact handleNotification_ne_responded _ j

/-- C3 witness: the timeout of the single pending call 1 fires, and the
late response for id 1 arriving in the post-timeout state changes nothing
and is not delivered to any call. -/
theorem c3_timeout_rejection_witness :
    timeoutStep
        { isConnected := true, requestId := 2, pending := [(1, "echo")],
          timers := [(1, "echo")], outcomes := [], issued := [1] } 1 =
      { isConnected := true, requestId := 2, pending := [], timers := [],
        outcomes := [(1, CallOutcome.requestTimeout "echo")], issued := [1] }
    ∧ 1 ∉ keysOf (timeoutStep
        { isConnected := true, requestId := 2, pending := [(1, "echo")],
          timers := [(1, "echo")], outcomes := [], issued := [1] } 1).pending
    ∧ (handleResponse
        { isConnected := true, requestId := 2, pending := [], timers := [],
          outcomes := [(1, CallOutcome.requestTimeout "echo")], issued := [1] }
        (Json.obj [("result", Json.arr [Json.str "ping"]), ("error", Json.null),
          ("id", Json.num 1)])).1 =
      { isConnected := true, requestId := 2, pending := [], timers := [],
        outcomes := [(1, CallOutcome.requestTimeout "echo")], issued := [1] }
    ∧ (handleResponse
        { isConnected := true, requestId := 2, pending := [], timers := [],
          outcomes := [(1, CallOutcome.requestTimeout "echo")], issued := [1] }
        (Json.obj [("result", Json.arr [Json.str "ping"]), ("error", Json.null),
          ("id", Json.num 1)])).2 ≠ RouteResult.responded 1 :=
  c3_timeout_rejection _ _ 1 1 "echo" _ rfl rfl rfl

/-- C4: closing a connected client runs _cleanup, which empties the
pending table, cancels every armed timeout, and appends one
connection-closed rejection per outstanding call (so K outstanding calls
yield exactly K new rejections), while every settlement already in the
log - in particular any call that already resolved - is kept unchanged. -/
theorem c4_close_rejects_pending (st : ClientState) (kv : Int × String)
    (entry : Int × CallOutcome) (hc : st.isConnected = true)
    (hkv : kv ∈ st.pending) (hentry : entry ∈ st.outcomes) :
    step st Event.close = cleanup st
    ∧ (cleanup st).pending = []
    ∧ (cleanup st).timers = []
    ∧ (cleanup st).outcomes =
        st.outcomes ++ st.pending.map (fun p => (p.1, CallOutcome.connectionClosed))
    ∧ (cleanup st).outcomes.length = st.outcomes.length + st.pending.length
    ∧ (kv.1, CallOutcome.connectionClosed) ∈ (cleanup st).outcomes
    ∧ entry ∈ (cleanup st).outcomes := by
  refine ⟨by simp [step, hc], rfl, rfl, rfl, ?_, ?_, ?_⟩
  · show (st.outcomes ++ st.pending.map
      (fun p => (p.1, CallOutcome.connectionClosed))).length = _
    rw [List.length_append, List.length_map]
  · show (kv.1, CallOutcome.connectionClosed) ∈
      st.outcomes ++ st.pending.map (fun p => (p.1, CallOutcome.connectionClosed))
    exact List.mem_append_right _
      (List.mem_map.mpr ⟨kv, hkv, rfl⟩)
  · show entry ∈ st.outcomes ++ st.pending.map
      (fun p => (p.1, CallOutcome.connectionClosed))
    exact List.mem_append_left _ hentry

/-- C4 witness: closing a connected client with two outstanding calls and
one already-resolved call rejects both outstanding calls and keeps the
earlier settlement. -/
theorem c4_close_rejects_pending_witness :
    step { isConnected := true, requestId := 4, pending := [(2, "echo"), (3, "transact")],
           timers := [(2, "echo"), (3, "transact")],
           outcomes := [(1, CallOutcome.resolved Json.null)], issued := [1, 2, 3] }
        Event.close =
      cleanup { isConnected := true, requestId := 4,
                pending := [(2, "echo"), (3, "transact")],
                timers := [(2, "echo"), (3, "transact")],
                outcomes := [(1, CallOutcome.resolved Json.null)], issued := [1, 2, 3] }
    ∧ (cleanup { isConnected := true, requestId := 4,
                 pending := [(2, "echo"), (3, "transact")],
                 timers := [(2, "echo"), (3, "transact")],
                 outcomes := [(1, CallOutcome.resolved Json.null)],
                 issued := [1, 2, 3] }).pending = []
    ∧ (cleanup { isConnected := true, requestId := 4,
                 pending := [(2, "echo"), (3, "transact")],
                 timers := [(2, "echo"), (3, "transact")],
                 outcomes := [(1, CallOutcome.resolved Json.null)],
                 issued := [1, 2, 3] }).timers = []
    ∧ (cleanup { isConnected := true, requestId := 4,
                 pending := [(2, "echo"), (3, "transact")],
                 timers := [(2, "echo"), (3, "transact")],
                 outcomes := [(1, CallOutcome.resolved Json.null)],
                 issued := [1, 2, 3] }).outcomes =
        [(1, CallOutcome.resolved Json.null)] ++
          [(2, "echo"), (3, "transact")].map (fun p => (p.1, CallOutcome.connectionClosed))
    ∧ (cleanup { isConnected := true, requestId := 4,
                 pending := [(2, "echo"), (3, "transact")],
                 timers := [(2, "echo"), (3, "transact")],
                 outcomes := [(1, CallOutcome.resolved Json.null)],
                 issued := [1, 2, 3] }).outcomes.length =
        [(1, CallOutcome.resolved Json.null)].length + [(2, "echo"), (3, "transact")].length
    ∧ ((2 : Int), CallOutcome.connectionClosed) ∈
        (cleanup { isConnected := true, requestId := 4,
                   pending := [(2, "echo"), (3, "transact")],
                   timers := [(2, "echo"), (3, "transact")],
                   outcomes := [(1, CallOutcome.resolved Json.null)],
                   issued := [1, 2, 3] }).outcomes
    ∧ ((1 : Int), CallOutcome.resolved Json.null) ∈
        (cleanup { isConnected := true, requestId := 4,
                   pending := [(2, "echo"), (3, "transact")],
                   timers := [(2, "echo"), (3, "transact")],
                   outcomes := [(1, CallOutcome.resolved Json.null)],
                   issued := [1, 2, 3] }).outcomes :=
  c4_close_rejects_pending _ (2, "echo") (1, CallOutcome.resolved Json.null) rfl
    (List.mem_cons_self _ _) (List.mem_singleton.mpr rfl)

/-- C5 counterexample: a message that carries a method but no identifier
field at all is logged as an invalid response and discarded by
_handleResponse, not dispatched to the notification handler, contradicting
the claim that an absent identifier classifies the message as a
notification. -/
theorem c5_router_counterexample :
    handleResponse initState
        (Json.obj [("method", Json.str "update"), ("params", Json.arr [])])
      = (initState, RouteResult.invalidFormat)
    ∧ RouteResult.invalidFormat ≠ RouteResult.notified (Json.str "update") :=
  ⟨rfl, fun h => RouteResult.noConfusion h⟩

/-- C5 (amended): only a message whose identifier field is present but
null (or unmatched) is classified as a notification and dispatched keyed
by its method name, with recognized kinds update, locked and stolen and a
logged default bucket for everything else, never raising; a message whose
identifier field is absent is logged and discarded even when it carries a
method; a message with a null identifier and no method field is logged
and discarded as an invalid notification; in each case the state is
untouched. -/
theorem c5_router_amended (st : ClientState)
    (fa fb fc : List (String × Json)) (m : Json) (s : String)
    (ha : lookupField fa "id" = none)
    (hb1 : lookupField fb "id" = some Json.null)
    (hb2 : lookupField fb "method" = some m)
    (hc1 : lookupField fc "id" = some Json.null)
    (hc2 : lookupField fc "method" = none)
    (hs1 : ¬ s = "update") (hs2 : ¬ s = "locked") (hs3 : ¬ s = "stolen") :
    handleResponse st (Json.obj fa) = (st, RouteResult.invalidFormat)
    ∧ handleResponse st (Json.obj fb) = (st, RouteResult.notified m)
    ∧ handleResponse st (Json.obj fc) = (st, RouteResult.invalidNotification)
    ∧ notifyKindOf (Json.str "update") = NotifyKind.update
    ∧ notifyKindOf (Json.str "locked") = NotifyKind.locked
    ∧ notifyKindOf (Json.str "stolen") = NotifyKind.stolen
    ∧ notifyKindOf (Json.str s) = NotifyKind.other := by
  refine ⟨?_, ?_, ?_, rfl, rfl, rfl, ?_⟩
  · simp [handleResponse, ha]
  · simp [handleResponse, handleNotification, hb1, hb2]
  · simp [handleResponse, handleNotification, hc1, hc2]
  · unfold notifyKindOf
    split
    next x hx =>
      injection hx with hx2
      exact absurd hx2 hs1
    next x hx =>
      injection hx with hx2
      exact absurd hx2 hs2
    next x hx =>
      injection hx with hx2
      exact absurd hx2 hs3
    next => rfl

/-- C5 witness: the amended routing at concrete messages - an absent-id
update message is discarded, a null-id locked message is dispatched keyed
by its method, and a null-id message without a method is discarded. -/
theorem c5_router_witness :
    handleResponse initState
        (Json.obj [("method", Json.str "update"), ("params", Json.arr [Json.null])])
      = (initState, RouteResult.invalidFormat)
    ∧ handleResponse initState
        (Json.obj [("id", Json.null), ("method", Json.str "locked"),
          ("params", Json.arr [Json.str "mylock"])])
      = (initState, RouteResult.notified (Json.str "locked"))
    ∧ handleResponse initState (Json.obj [("id", Json.null)])
      = (initState, RouteResult.invalidNotification)
    ∧ notifyKindOf (Json.str "update") = NotifyKind.update
    ∧ notifyKindOf (Json.str "locked") = NotifyKind.locked
    ∧ notifyKindOf (Json.str "stolen") = NotifyKind.stolen
    ∧ notifyKindOf (Json.str "echo") = NotifyKind.other :=
  c5_router_amended initState
    [("method", Json.str "update"), ("params", Json.arr [Json.null])]
    [("id", Json.null), ("method", Json.str "locked"),
     ("params", Json.arr [Json.str "mylock"])]
    [("id", Json.null)] (Json.str "locked") "echo"
    rfl rfl rfl rfl rfl (by decide) (by decide) (by decide)

/-- C6: identifiers are positive integers assigned monotonically per
client starting at 1: the constructor initializes the counter to 1, in
every reachable state the counter is at least 1 and every issued id lies
strictly between 0 and the counter, the issued ids form a strictly
increasing sequence, no event ever decreases the counter, and a request
on a connected client registers exactly the current counter value, which
is neither an outstanding pending key nor any previously issued id. -/
theorem c6_identifier_generator (st : ClientState) (idp : Int) (m : String)
    (ps : List Json) (e : Event) (h : Reachable st)
    (hc : st.isConnected = true) (hidp : idp ∈ st.issued) :
    initState.requestId = 1
    ∧ 1 ≤ st.requestId
    ∧ st.issued.Pairwise (· < ·)
    ∧ 1 ≤ idp
    ∧ idp < st.requestId
    ∧ st.requestId ≤ (step st e).requestId
    ∧ (requestStep st m ps).2 = RequestResult.registered st.requestId
    ∧ (requestStep st m ps).1.requestId = st.requestId + 1
    ∧ st.requestId ∉ keysOf st.pending
    ∧ st.requestId ∉ st.issued := by
  have hi := inv_reachable h
  refine ⟨rfl, hi.ridPos, hi.issuedMono, hi.issuedLB idp hidp, hi.issuedUB idp hidp,
    requestId_step_mono st e, ?_, ?_, ?_, ?_⟩
  · simp [requestStep, hc]
  · simp [requestStep, hc]
  · intro hp
    exact absurd (hi.issuedUB _ (hi.pendSub _ hp)) (lt_irrefl _)
  · intro hp
    exact absurd (hi.issuedUB _ hp) (lt_irrefl _)

/-- C6 witness: the identifier facts at the reachable state after
connecting and issuing one call, for the issued id 1. -/
theorem c6_identifier_generator_witness :
    initState.requestId = 1
    ∧ 1 ≤ (run initState [Event.connectOk, Event.request "echo" []]).requestId
    ∧ (run initState [Event.connectOk, Event.request "echo" []]).issued.Pairwise (· < ·)
    ∧ (1 : Int) ≤ 1
    ∧ (1 : Int) < (run initState [Event.connectOk, Event.request "echo" []]).requestId
    ∧ (run initState [Event.connectOk, Event.request "echo" []]).requestId ≤
        (step (run initState [Event.connectOk, Event.request "echo" []])
          (Event.request "echo" [])).requestId
    ∧ (requestStep (run initState [Event.connectOk, Event.request "echo" []])
        "echo" []).2 = RequestResult.registered
          (run initState [Event.connectOk, Event.request "echo" []]).requestId
    ∧ (requestStep (run initState [Event.connectOk, Event.request "echo" []])
        "echo" []).1.requestId =
        (run initState [Event.connectOk, Event.request "echo" []]).requestId + 1
    ∧ (run initState [Event.connectOk, Event.request "echo" []]).requestId ∉
        keysOf (run initState [Event.connectOk, Event.request "echo" []]).pending
    ∧ (run initState [Event.connectOk, Event.request "echo" []]).requestId ∉
        (run initState [Event.connectOk, Event.request "echo" []]).issued :=
  c6_identifier_generator _ 1 "echo" [] (Event.request "echo" [])
    ⟨[Event.connectOk, Event.request "echo" []], rfl⟩ rfl (by decide)

/-- C7 counterexample: a response frame for the pending call 1 that is
split across two transport reads is never decoded - each half fails to
parse and is logged (one decode failure per chunk), the call stays
pending with nothing settled - whereas the same frame arriving whole in
one chunk settles the call; so the decoder does not buffer and reassemble
the undelimited remainder. -/
theorem c7_buffering_counterexample :
    (handleData (run initState [Event.connectOk, Event.request "echo" [Json.str "ping"]])
        "\x7b\"id\":1,\"res").2.2 = 1
    ∧ (handleData (run initState [Event.connectOk, Event.request "echo" [Json.str "ping"]])
        "\x7b\"id\":1,\"res").1
      = run initState [Event.connectOk, Event.request "echo" [Json.str "ping"]]
    ∧ (handleData (handleData
          (run initState [Event.connectOk, Event.request "echo" [Json.str "ping"]])
          "\x7b\"id\":1,\"res").1
        "ult\":[\"ping\"],\"error\":null\x7d\n").2.2 = 1
    ∧ (handleData (handleData
          (run initState [Event.connectOk, Event.request "echo" [Json.str "ping"]])
          "\x7b\"id\":1,\"res").1
        "ult\":[\"ping\"],\"error\":null\x7d\n").1.pending = [(1, "echo")]
    ∧ (handleData (handleData
          (run initState [Event.connectOk, Event.request "echo" [Json.str "ping"]])
          "\x7b\"id\":1,\"res").1
        "ult\":[\"ping\"],\"error\":null\x7d\n").1.outcomes = []
    ∧ (handleData (run initState [Event.connectOk, Event.request "echo" [Json.str "ping"]])
        "\x7b\"id\":1,\"result\":[\"ping\"],\"error\":null\x7d\n").1.outcomes
      = [(1, CallOutcome.resolved (Json.obj [("id", Json.num 1),
          ("result", Json.arr [Json.str "ping"]), ("error", Json.null)]))] :=
  ⟨rfl, rfl, rfl, rfl, rfl, rfl⟩

/-- C7 (amended): the frame decoder keeps no buffer between chunks - each
chunk is trimmed, split on newlines and handled on its own, so when every
segment of a chunk is empty or undecodable (as both halves of a frame
split across two reads are) the chunk leaves the state exactly unchanged,
routes no message, and logs one decode failure per nonempty segment;
nothing is carried over for reassembly with the next chunk. -/
theorem c7_no_partial_frame_buffering (st : ClientState) (chunk : String)
    (h : allUndecodable chunk = true) :
    (handleData st chunk).1 = st
    ∧ (handleData st chunk).2.1 = []
    ∧ (handleData st chunk).2.2 =
        ((splitLines (trimString chunk)).filter (fun s => s != "")).length := by
  have hall := processSegments_all_bad (splitLines (trimString chunk))
    (by simpa [allUndecodable] using h) st
  refine ⟨?_, ?_, ?_⟩ <;> simp [handleData, hall]

/-- C7 witness: the amended statement at the first half of a frame split
across two reads, fed to the state holding the pending call 1. -/
theorem c7_no_partial_frame_buffering_witness :
    (handleData
        { isConnected := true, requestId := 2, pending := [(1, "echo")],
          timers := [(1, "echo")], outcomes := [], issued := [1] }
        "\x7b\"id\":1,\"res").1
      = { isConnected := true, requestId := 2, pending := [(1, "echo")],
          timers := [(1, "echo")], outcomes := [], issued := [1] }
    ∧ (handleData
        { isConnected := true, requestId := 2, pending := [(1, "echo")],
          timers := [(1, "echo")], outcomes := [], issued := [1] }
        "\x7b\"id\":1,\"res").2.1 = []
    ∧ (handleData
        { isConnected := true, requestId := 2, pending := [(1, "echo")],
          timers := [(1, "echo")], outcomes := [], issued := [1] }
        "\x7b\"id\":1,\"res").2.2 =
        ((splitLines (trimString "\x7b\"id\":1,\"res")).filter (fun s => s != "")).length :=
  c7_no_partial_frame_buffering
    { isConnected := true, requestId := 2, pending := [(1, "echo")],
      timers := [(1, "echo")], outcomes := [], issued := [1] }
    "\x7b\"id\":1,\"res" rfl

/-- C8: the frame decoder splits the trimmed chunk on newlines and parses
each segment on its own: whenever the segment list contains one malformed
nonempty segment, the chunk is handled exactly as the same chunk without
that segment - same final state, same routed messages in the same order -
with precisely one more logged decode failure, and no exception reaches
the caller (handling is total). -/
theorem c8_parse_failure_isolation (st : ClientState) (chunk : String)
    (pre post : List String) (bad : String)
    (hsegs : splitLines (trimString chunk) = pre ++ bad :: post)
    (hb : ¬ bad = "") (hp : jsonParse bad = none) :
    handleData st chunk =
      ((processSegments st (pre ++ post)).1,
       (processSegments st (pre ++ post)).2.1,
       (processSegments st (pre ++ post)).2.2 + 1) := by
  unfold handleData
  rw [hsegs]
  exact processSegments_skip_bad hb hp pre post st

/-- C8 witness: a chunk holding two delimiter-separated valid frames
followed by one malformed segment yields exactly the two routed
notifications, in order, and one logged decode failure. -/
theorem c8_parse_failure_isolation_witness :
    handleData initState
        "\x7b\"method\":\"locked\",\"params\":[\"mylock\"],\"id\":null\x7d\n\x7b\"method\":\"stolen\",\"params\":[\"mylock\"],\"id\":null\x7d\nGARBAGE"
      = (initState,
         [RouteResult.notified (Json.str "locked"),
          RouteResult.notified (Json.str "stolen")], 1) :=
  c8_parse_failure_isolation initState
    "\x7b\"method\":\"locked\",\"params\":[\"mylock\"],\"id\":null\x7d\n\x7b\"method\":\"stolen\",\"params\":[\"mylock\"],\"id\":null\x7d\nGARBAGE"
    ["\x7b\"method\":\"locked\",\"params\":[\"mylock\"],\"id\":null\x7d",
     "\x7b\"method\":\"stolen\",\"params\":[\"mylock\"],\"id\":null\x7d"]
    [] "GARBAGE" rfl (by decide) rfl

/-- C9: issuing a call while the client is not connected rejects
immediately with the not-connected error and leaves the state exactly as
it was: no identifier is allocated, no pending entry is registered. -/
theorem c9_not_connected_rejects (st : ClientState) (m : String)
    (ps : List Json) (h : st.isConnected = false) :
    requestStep st m ps = (st, RequestResult.notConnected)
    ∧ (requestStep st m ps).1.requestId = st.requestId
    ∧ (requestStep st m ps).1.pending = st.pending
    ∧ step st (Event.request m ps) = st := by
  refine ⟨?_, ?_, ?_, ?_⟩ <;> simp [requestStep, step, h]

/-- C9 witness: a call issued on a freshly constructed, never-connected
client is rejected with the not-connected error and changes nothing. -/
theorem c9_not_connected_rejects_witness :
    requestStep initState "echo" [Json.str "ping"] = (initState, RequestResult.notConnected)
    ∧ (requestStep initState "echo" [Json.str "ping"]).1.requestId = initState.requestId
    ∧ (requestStep initState "echo" [Json.str "ping"]).1.pending = initState.pending
    ∧ step initState (Event.request "echo" [Json.str "ping"]) = initState :=
  c9_not_connected_rejects initState "echo" [Json.str "ping"] rfl

/-- C10: the echo wrapper normalizes its payload at the boundary: a
non-array payload is sent as the one-element params array holding it, the
default payload ping is sent as the singleton ping array, an array payload
is sent as-is; and on a response whose top-level error is null whose
result is an array, echo returns that result array. -/
theorem c10_echo_normalization (p : Json) (xs : List Json)
    (fields : List (String × Json)) (rxs : List Json)
    (hp : isArrayJs p = false)
    (he : lookupField fields "error" = some Json.null)
    (hr : lookupField fields "result" = some (Json.arr rxs)) :
    echoCall p = ("echo", [p])
    ∧ echoCall (Json.arr xs) = ("echo", xs)
    ∧ echoCall echoDefaultPayload = ("echo", [Json.str "ping"])
    ∧ echoAfter (Json.obj fields) = EchoResult.ok (Json.arr rxs) := by
  refine ⟨?_, rfl, rfl, ?_⟩
  · cases p with
    | arr ys => simp [isArrayJs] at hp
    | null => rfl
    | bool b => rfl
    | num n => rfl
    | str s => rfl
    | obj fs => rfl
  · simp [echoAfter, hasPropJs, jsGetField, he, hr]

/-- C10 witness: echo of the default ping payload sends the singleton
ping params, an array payload passes unchanged, and the ping response
with a null error returns the ping result array. -/
theorem c10_echo_normalization_witness :
    echoCall (Json.str "ping") = ("echo", [Json.str "ping"])
    ∧ echoCall (Json.arr [Json.num 1]) = ("echo", [Json.num 1])
    ∧ echoCall echoDefaultPayload = ("echo", [Json.str "ping"])
    ∧ echoAfter (Json.obj [("result", Json.arr [Json.str "ping"]),
        ("error", Json.null), ("id", Json.num 7)])
      = EchoResult.ok (Json.arr [Json.str "ping"]) :=
  c10_echo_normalization (Json.str "ping") [Json.num 1]
    [("result", Json.arr [Json.str "ping"]), ("error", Json.null),
     ("id", Json.num 7)] [Json.str "ping"] rfl rfl rfl

end Ovsdb
